import Mathlib

/-!
# Verification of `medical_dictionary_scraper.py`

A shallow embedding of the core logic of the Finnish medical dictionary
scraper: the session/login state machine, the result-classification
heuristic of `search_term`, and the batch orchestration of
`search_multiple_terms`.

The browser is an external collaborator; its behaviour is modelled by
explicit environment values: a `LoginEnv` describing how the login flow
ends (an exception somewhere in the flow, or completion with a final
URL), and a map `Nat → FetchResult` giving the outcome of the i-th
search performed (raw page content, a timeout, or another failure).
Python strings are modelled as Lean `String`s (lists of code points);
the `in` substring test and `str.lower()` are embedded below.
-/

namespace Scraper

/-- `listStartsWith pat l` : the list `l` begins with the list `pat`. -/
def listStartsWith : List Char → List Char → Bool
  | [], _ => true
  | _ :: _, [] => false
  | p :: ps, c :: cs => p == c && listStartsWith ps cs

/-- `containsSub pat l` : the list `pat` occurs as a contiguous sublist of
`l`.  Embeds the Python substring test over the code points. -/
def containsSub (pat : List Char) : List Char → Bool
  | [] => listStartsWith pat []
  | c :: cs => listStartsWith pat (c :: cs) || containsSub pat cs

/-- Embeds Python's `pat in s` substring test on strings. -/
def inStr (pat s : String) : Bool :=
  containsSub pat.data s.data

/-- Embeds Python's `str.lower()` on one character, for the character
ranges this program can meet: ASCII `A`–`Z` and the Latin-1 uppercase
letters `À`–`Þ` (which include the Finnish `Ä`, `Ö`, `Å`), each 32 code
points above its lowercase form; `×` (0xD7) is not a letter and is kept. -/
def pyCharLower (c : Char) : Char :=
  if 65 ≤ c.toNat ∧ c.toNat ≤ 90 then Char.ofNat (c.toNat + 32)
  else if 0xC0 ≤ c.toNat ∧ c.toNat ≤ 0xDE ∧ c.toNat ≠ 0xD7 then Char.ofNat (c.toNat + 32)
  else c

/-- Embeds Python's `str.lower()` (`page_source.lower()` in the source). -/
def pyLower (s : String) : String :=
  String.mk (s.data.map pyCharLower)

/-- The result-classification heuristic of `search_term`
(`src/medical_dictionary_scraper.py` lines 136–155), applied to the
fetched `page_source`.  First-match-wins chain:
1. exact `"Ei tuloksia"` → `"not found"`;
2. `"Yhteensä"` and `"osumaa"` both present → `"found"`;
3. exact `"Lääketieteen termit"`, or `"termit"` in the lowercased
   content → `"found"`;
4. `"ei tuloksia"` or `"ei löytynyt"` in the lowercased content →
   `"not found"`;
5. default → `"found"`. -/
def classify (page_source : String) : String :=
  if inStr "Ei tuloksia" page_source then "not found"
  else if inStr "Yhteensä" page_source && inStr "osumaa" page_source then "found"
  else if inStr "Lääketieteen termit" page_source || inStr "termit" (pyLower page_source) then "found"
  else if inStr "ei tuloksia" (pyLower page_source) || inStr "ei löytynyt" (pyLower page_source) then "not found"
  else "found"

/-- How the browser-side login flow ends, seen from `login`'s `try` block
(`src/medical_dictionary_scraper.py` lines 55–103): either some step of
the flow raises an exception (element not found, navigation or timeout
failure — all caught by the `except` clause), or the flow completes and
the browser sits at a final `current_url`. -/
inductive LoginEnv where
  | raises
  | completes (current_url : String)

/-- The value of `self.is_logged_in` set in `__init__`
(`src/medical_dictionary_scraper.py` line 32). -/
def init_is_logged_in : Bool := false

/-- Embeds `login` (`src/medical_dictionary_scraper.py` lines 48–103) as a
function of the current `is_logged_in` flag and the browser environment.
Returns `(success, new_is_logged_in)`: on an exception the `except`
clause returns `False` and the flag is untouched; on completion,
success and the flag are set exactly when `"sanakirjat"` occurs in the
final URL (line 93), else `False` is returned and the flag is untouched. -/
def login (is_logged_in : Bool) (env : LoginEnv) : Bool × Bool :=
  match env with
  | .raises => (false, is_logged_in)
  | .completes url =>
      if inStr "sanakirjat" url then (true, true) else (false, is_logged_in)

/-- The login guard inlined at the top of `search_multiple_terms`
(`src/medical_dictionary_scraper.py` lines 176–179), which the spec names
`ensure_authenticated`: if not already logged in, call `login` once;
otherwise proceed at once.  Returns
`(success, new_is_logged_in, number_of_login_calls)`. -/
def ensure_authenticated (is_logged_in : Bool) (env : LoginEnv) : Bool × Bool × Nat :=
  if is_logged_in then (true, is_logged_in, 0)
  else ((login is_logged_in env).1, (login is_logged_in env).2, 1)

/-- The outcome of one search in `search_term`'s `try` block
(`src/medical_dictionary_scraper.py` lines 115–133): the fetched
`page_source`, a `TimeoutException` (line 157), or any other exception
(line 160). -/
inductive FetchResult where
  | content (page_source : String)
  | timeout
  | failure

/-- Embeds `search_term` (`src/medical_dictionary_scraper.py` lines
105–162) as a function of the browser outcome: page content is handed to
the classification chain; both exception kinds are caught at this
boundary and converted to the `"error"` label, so the function is total
(nothing propagates to the caller). -/
def search_term (r : FetchResult) : String :=
  match r with
  | .content page_source => classify page_source
  | .timeout => "error"
  | .failure => "error"

/-- One Python-dict assignment `results[term] = status` on an
insertion-ordered association list with unique keys (the invariant a
Python dict maintains): an existing key keeps its original position and
gets the new value; a new key is appended at the end. -/
def dictInsert : List (String × String) → String → String → List (String × String)
  | [], k, v => [(k, v)]
  | p :: ps, k, v => if p.1 = k then (k, v) :: ps else p :: dictInsert ps k v

/-- Python-dict lookup `m[k]` on the association-list model. -/
def dictGet : List (String × String) → String → Option String
  | [], _ => none
  | p :: ps, k => if p.1 = k then some p.2 else dictGet ps k

/-- The accumulation loop shared by the two dict-building sites of
`search_multiple_terms`: insert `vf i` for the i-th remaining term, `i`
counting the iterations already done.  Returns the finished dict and the
total iteration count. -/
def insertSeq (vf : Nat → String) : List String → Nat → List (String × String) → List (String × String) × Nat
  | [], i, acc => (acc, i)
  | t :: ts, i, acc => insertSeq vf ts (i + 1) (dictInsert acc t (vf i))

/-- Embeds `search_multiple_terms` (`src/medical_dictionary_scraper.py`
lines 164–191), the spec's `run()`.  If the login guard fails, the dict
comprehension `{term: "error" for term in terms}` is returned and no
search runs (search count 0).  Otherwise the loop searches every term in
input order — the i-th search's browser outcome is `senv i` — and writes
each status into `results` keyed by the term.  Returns
`(results, number_of_searches_performed)`. -/
def search_multiple_terms (is_logged_in : Bool) (lenv : LoginEnv)
    (senv : Nat → FetchResult) (terms : List String) :
    List (String × String) × Nat :=
  if (ensure_authenticated is_logged_in lenv).1 then
    insertSeq (fun i => search_term (senv i)) terms 0 []
  else
    ((insertSeq (fun _ => "error") terms 0 []).1, 0)

/-- The index of the last occurrence of `t` in `ts` (meaningful when
`t ∈ ts`). -/
def lastIdxIn : List String → String → Nat
  | [], _ => 0
  | _ :: xs, t => if t ∈ xs then 1 + lastIdxIn xs t else 0

/-- The keys a run of `dictInsert`s over `ts` adds to a dict that already
holds the keys `ks`: the first occurrences of the fresh terms, in input
order (Python-dict insertion order). -/
def newKeys (ks : List String) : List String → List String
  | [] => []
  | t :: ts => if t ∈ ks then newKeys ks ts else t :: newKeys (ks ++ [t]) ts

/-! ## Supporting lemmas about the Python-dict model -/

/-- Looking a key up after an assignment: the assigned key reads back the
new value, every other key is untouched. -/
theorem dictGet_dictInsert (m : List (String × String)) (k v t : String) :
    dictGet (dictInsert m k v) t = if t = k then some v else dictGet m t := by
  induction m with
  | nil =>
      simp only [dictInsert, dictGet]
      by_cases h : t = k
      · subst h
        simp
      · rw [if_neg (fun hh => h hh.symm), if_neg h]
  | cons p ps ih =>
      obtain ⟨a, b⟩ := p
      simp only [dictInsert]
      by_cases hak : a = k
      · subst hak
        simp only [if_pos rfl, dictGet]
        by_cases h : t = a
        · subst h
          simp
        · simp [h, Ne.symm h]
      · simp only [if_neg hak, dictGet, ih]
        by_cases hat : a = t
        · subst hat
          simp [hak]
        · simp [hat]

/-- The key list after an assignment: unchanged for an existing key, the
new key appended at the end otherwise. -/
theorem keys_dictInsert (m : List (String × String)) (k v : String) :
    (dictInsert m k v).map Prod.fst =
      if k ∈ m.map Prod.fst then m.map Prod.fst else m.map Prod.fst ++ [k] := by
  induction m with
  | nil => simp [dictInsert]
  | cons p ps ih =>
      obtain ⟨a, b⟩ := p
      simp only [dictInsert]
      by_cases hak : a = k
      · subst hak
        simp
      · simp only [if_neg hak, List.map_cons, ih]
        by_cases hk : k ∈ ps.map Prod.fst <;>
          simp [hk, hak, Ne.symm hak]

/-- An assignment keeps the dict's keys free of duplicates. -/
theorem nodup_keys_dictInsert (m : List (String × String)) (k v : String)
    (h : (m.map Prod.fst).Nodup) : ((dictInsert m k v).map Prod.fst).Nodup := by
  rw [keys_dictInsert]
  by_cases hk : k ∈ m.map Prod.fst
  · simpa [hk]
  · simp [hk, List.nodup_append, h]

/-! ## Supporting lemmas about the accumulation loop -/

/-- The loop performs one iteration per term of the list, duplicates
included. -/
theorem insertSeq_count (vf : Nat → String) (ts : List String) (i : Nat)
    (acc : List (String × String)) :
    (insertSeq vf ts i acc).2 = i + ts.length := by
  induction ts generalizing i acc with
  | nil => simp [insertSeq]
  | cons t ts ih =>
      simp only [insertSeq, ih, List.length_cons]
      omega

/-- Looking up a term after the loop: a term of the list reads back the
value of its last occurrence (last write wins); any other key is
untouched. -/
theorem insertSeq_get (vf : Nat → String) (ts : List String) (i : Nat)
    (acc : List (String × String)) (t : String) :
    dictGet (insertSeq vf ts i acc).1 t =
      if t ∈ ts then some (vf (i + lastIdxIn ts t)) else dictGet acc t := by
  induction ts generalizing i acc with
  | nil => simp [insertSeq]
  | cons x xs ih =>
      simp only [insertSeq]
      rw [ih, dictGet_dictInsert]
      by_cases hmem : t ∈ xs
      · simp [hmem, List.mem_cons_of_mem x hmem, lastIdxIn, Nat.add_assoc]
      · by_cases htx : t = x
        · subst htx
          simp [hmem, lastIdxIn]
        · simp [hmem, htx, lastIdxIn]

/-- The key list after the loop: the keys already present, then the
fresh terms in first-occurrence order. -/
theorem insertSeq_keys (vf : Nat → String) (ts : List String) (i : Nat)
    (acc : List (String × String)) :
    (insertSeq vf ts i acc).1.map Prod.fst =
      acc.map Prod.fst ++ newKeys (acc.map Prod.fst) ts := by
  induction ts generalizing i acc with
  | nil => simp [insertSeq, newKeys]
  | cons x xs ih =>
      simp only [insertSeq, newKeys]
      rw [ih, keys_dictInsert]
      by_cases hx : x ∈ acc.map Prod.fst
      · simp [hx]
      · simp [hx]

/-- The loop keeps the dict's keys free of duplicates. -/
theorem insertSeq_nodup (vf : Nat → String) (ts : List String) (i : Nat)
    (acc : List (String × String)) (h : (acc.map Prod.fst).Nodup) :
    ((insertSeq vf ts i acc).1.map Prod.fst).Nodup := by
  induction ts generalizing i acc with
  | nil => simpa [insertSeq]
  | cons x xs ih =>
      simp only [insertSeq]
      exact ih _ _ (nodup_keys_dictInsert _ _ _ h)

/-- `newKeys ks ts` holds exactly the members of `ts` that are not in
`ks`: with `ks = []`, the distinct terms of the input. -/
theorem mem_newKeys (ks ts : List String) (t : String) :
    t ∈ newKeys ks ts ↔ (t ∈ ts ∧ t ∉ ks) := by
  induction ts generalizing ks with
  | nil => simp [newKeys]
  | cons x xs ih =>
      simp only [newKeys]
      by_cases hx : x ∈ ks
      · rw [if_pos hx, ih]
        constructor
        · exact fun ⟨h1, h2⟩ => ⟨List.mem_cons_of_mem x h1, h2⟩
        · rintro ⟨h1, h2⟩
          rcases List.mem_cons.mp h1 with h | h
          · exact absurd (h ▸ hx) h2
          · exact ⟨h, h2⟩
      · rw [if_neg hx]
        simp only [List.mem_cons, ih, List.mem_append, List.mem_singleton]
        by_cases htx : t = x
        · subst htx
          simp [hx]
        · simp [htx]

/-- `lastIdxIn ts t` is genuinely the index of the last occurrence of a
member `t`: the list holds `t` there and nowhere later. -/
theorem lastIdxIn_is_last (ts : List String) (t : String) (h : t ∈ ts) :
    ts[lastIdxIn ts t]? = some t
    ∧ ∀ j, lastIdxIn ts t < j → ts[j]? ≠ some t := by
  induction ts with
  | nil => cases h
  | cons x xs ih =>
      by_cases hmem : t ∈ xs
      · obtain ⟨ih1, ih2⟩ := ih hmem
        have hL : lastIdxIn (x :: xs) t = lastIdxIn xs t + 1 := by
          simp [lastIdxIn, hmem, Nat.add_comm]
        refine ⟨?_, ?_⟩
        · rw [hL]
          simpa using ih1
        · intro j hj
          rw [hL] at hj
          match j, hj with
          | j + 1, hj =>
              have hlt : lastIdxIn xs t < j := by omega
              simpa using ih2 j hlt
      · have htx : t = x := by
          rcases List.mem_cons.mp h with h' | h'
          · exact h'
          · exact absurd h' hmem
        subst htx
        have hL : lastIdxIn (t :: xs) t = 0 := by simp [lastIdxIn, hmem]
        refine ⟨by rw [hL]; simp, ?_⟩
        intro j hj hget
        rw [hL] at hj
        match j, hj with
        | j + 1, _ =>
            have hx : xs[j]? = some t := by simpa using hget
            obtain ⟨hn, hv⟩ := List.getElem?_eq_some_iff.mp hx
            exact hmem (hv ▸ List.getElem_mem hn)

/-! ## The claims -/

/-- C1: content holding both the exact "no results" phrase `"Ei tuloksia"`
and the "total matches" plus "hits" markers `"Yhteensä"`/`"osumaa"`
classifies as not found: rule 1 precedes rule 2 in the first-match-wins
chain. -/
theorem rule1_precedes_rule2 (c : String)
    (h1 : inStr "Ei tuloksia" c = true)
    (h2 : inStr "Yhteensä" c = true)
    (h3 : inStr "osumaa" c = true) :
    classify c = "not found" := by
  simp [classify, h1]

theorem rule1_precedes_rule2_witness :
    inStr "Ei tuloksia" "Ei tuloksia. Yhteensä 305 osumaa" = true
    ∧ inStr "Yhteensä" "Ei tuloksia. Yhteensä 305 osumaa" = true
    ∧ inStr "osumaa" "Ei tuloksia. Yhteensä 305 osumaa" = true
    ∧ classify "Ei tuloksia. Yhteensä 305 osumaa" = "not found" :=
  ⟨by decide, by decide, by decide,
   rule1_precedes_rule2 _ (by decide) (by decide) (by decide)⟩

/-- C2: when the session is unauthenticated and the login attempt fails,
`search_multiple_terms` maps every input term to `"error"`, its key list
is exactly the distinct input terms in first-occurrence order, and no
search is performed. -/
theorem run_auth_failure (lenv : LoginEnv) (senv : Nat → FetchResult)
    (terms : List String) (t : String)
    (hauth : (ensure_authenticated false lenv).1 = false)
    (ht : t ∈ terms) :
    (search_multiple_terms false lenv senv terms).2 = 0
    ∧ dictGet (search_multiple_terms false lenv senv terms).1 t = some "error"
    ∧ (search_multiple_terms false lenv senv terms).1.map Prod.fst = newKeys [] terms := by
  have hrun : search_multiple_terms false lenv senv terms
      = ((insertSeq (fun _ => "error") terms 0 []).1, 0) := by
    simp [search_multiple_terms, hauth]
  rw [hrun]
  refine ⟨rfl, ?_, ?_⟩
  · rw [insertSeq_get]
    simp [ht]
  · rw [insertSeq_keys]
    simp

theorem run_auth_failure_witness :
    (ensure_authenticated false LoginEnv.raises).1 = false
    ∧ "Sydän" ∈ (["Sydän"] : List String)
    ∧ ((search_multiple_terms false LoginEnv.raises (fun _ => FetchResult.timeout) ["Sydän"]).2 = 0
       ∧ dictGet (search_multiple_terms false LoginEnv.raises (fun _ => FetchResult.timeout) ["Sydän"]).1 "Sydän" = some "error"
       ∧ (search_multiple_terms false LoginEnv.raises (fun _ => FetchResult.timeout) ["Sydän"]).1.map Prod.fst = newKeys [] ["Sydän"]) :=
  ⟨by decide, by decide,
   run_auth_failure LoginEnv.raises (fun _ => FetchResult.timeout) ["Sydän"] "Sydän" (by decide) (by decide)⟩

/-- C3: after a successful login guard, the result mapping of
`search_multiple_terms` has one entry per distinct input term (its keys
are duplicate-free and are exactly the distinct terms in first-occurrence
insertion order), and the value kept for a term is the one produced by
its most recent occurrence. -/
theorem run_dedup_last_wins (s : Bool) (lenv : LoginEnv) (senv : Nat → FetchResult)
    (terms : List String) (t : String)
    (hauth : (ensure_authenticated s lenv).1 = true)
    (ht : t ∈ terms) :
    (search_multiple_terms s lenv senv terms).1.map Prod.fst = newKeys [] terms
    ∧ ((search_multiple_terms s lenv senv terms).1.map Prod.fst).Nodup
    ∧ dictGet (search_multiple_terms s lenv senv terms).1 t
        = some (search_term (senv (lastIdxIn terms t))) := by
  have hrun : search_multiple_terms s lenv senv terms
      = insertSeq (fun i => search_term (senv i)) terms 0 [] := by
    simp [search_multiple_terms, hauth]
  rw [hrun]
  refine ⟨?_, ?_, ?_⟩
  · rw [insertSeq_keys]
    simp
  · exact insertSeq_nodup _ _ _ _ (by simp)
  · rw [insertSeq_get]
    simp [ht]

theorem run_dedup_last_wins_witness :
    (ensure_authenticated true LoginEnv.raises).1 = true
    ∧ "aivo" ∈ (["aivo", "sydän", "aivo"] : List String)
    ∧ ((search_multiple_terms true LoginEnv.raises (fun _ => FetchResult.timeout) ["aivo", "sydän", "aivo"]).1.map Prod.fst = newKeys [] ["aivo", "sydän", "aivo"]
       ∧ ((search_multiple_terms true LoginEnv.raises (fun _ => FetchResult.timeout) ["aivo", "sydän", "aivo"]).1.map Prod.fst).Nodup
       ∧ dictGet (search_multiple_terms true LoginEnv.raises (fun _ => FetchResult.timeout) ["aivo", "sydän", "aivo"]).1 "aivo"
           = some (search_term (FetchResult.timeout))) :=
  ⟨by decide, by decide,
   run_dedup_last_wins true LoginEnv.raises (fun _ => FetchResult.timeout)
     ["aivo", "sydän", "aivo"] "aivo" (by decide) (by decide)⟩

/-- C4 counterexample: the content `"Ei Tuloksia terms"` is matched by
neither rule 1 nor rule 2 and contains the substring `"terms"`
case-insensitively, yet it classifies as `"not found"` (rule 3's
lowercase marker is `"termit"`, not `"terms"`, so rule 4's
case-insensitive "no results" check fires instead). -/
theorem rule3_terms_counterexample :
    inStr "Ei tuloksia" "Ei Tuloksia terms" = false
    ∧ (inStr "Yhteensä" "Ei Tuloksia terms" && inStr "osumaa" "Ei Tuloksia terms") = false
    ∧ inStr "terms" (pyLower "Ei Tuloksia terms") = true
    ∧ classify "Ei Tuloksia terms" = "not found"
    ∧ classify "Ei Tuloksia terms" ≠ "found" := by
  refine ⟨by decide, by decide, by decide, by decide, by decide⟩

/-- C4 as amended: for content matched by neither rule 1 nor rule 2, if
it contains the exact dictionary-section header `"Lääketieteen termit"`
or, case-insensitively, the substring `"termit"`, the classifier returns
`"found"` (rule 3). -/
theorem rule3_header_found (c : String)
    (h1 : inStr "Ei tuloksia" c = false)
    (h2 : (inStr "Yhteensä" c && inStr "osumaa" c) = false)
    (h3 : inStr "Lääketieteen termit" c = true ∨ inStr "termit" (pyLower c) = true) :
    classify c = "found" := by
  rcases h3 with h | h <;> simp [classify, h1, h2, h]

theorem rule3_header_found_witness :
    inStr "Ei tuloksia" "Hakutulokset: Lääketieteen termit" = false
    ∧ (inStr "Yhteensä" "Hakutulokset: Lääketieteen termit" && inStr "osumaa" "Hakutulokset: Lääketieteen termit") = false
    ∧ (inStr "Lääketieteen termit" "Hakutulokset: Lääketieteen termit" = true
       ∨ inStr "termit" (pyLower "Hakutulokset: Lääketieteen termit") = true)
    ∧ classify "Hakutulokset: Lääketieteen termit" = "found" :=
  ⟨by decide, by decide, by decide,
   rule3_header_found _ (by decide) (by decide) (by decide)⟩

/-- C5: content containing none of the recognized markers — no exact or
case-insensitive "no results" phrase, no "total matches + hits" pair, no
dictionary-section header marker, no "not found" phrasing
(`"ei löytynyt"`) — classifies as `"found"` (default-positive policy). -/
theorem default_positive (c : String)
    (h1 : inStr "Ei tuloksia" c = false)
    (h2 : (inStr "Yhteensä" c && inStr "osumaa" c) = false)
    (h3 : inStr "Lääketieteen termit" c = false)
    (h4 : inStr "termit" (pyLower c) = false)
    (h5 : inStr "ei tuloksia" (pyLower c) = false)
    (h6 : inStr "ei löytynyt" (pyLower c) = false) :
    classify c = "found" := by
  simp [classify, h1, h2, h3, h4, h5, h6]

theorem default_positive_witness :
    inStr "Ei tuloksia" "jotain muuta sisältöä" = false
    ∧ (inStr "Yhteensä" "jotain muuta sisältöä" && inStr "osumaa" "jotain muuta sisältöä") = false
    ∧ inStr "Lääketieteen termit" "jotain muuta sisältöä" = false
    ∧ inStr "termit" (pyLower "jotain muuta sisältöä") = false
    ∧ inStr "ei tuloksia" (pyLower "jotain muuta sisältöä") = false
    ∧ inStr "ei löytynyt" (pyLower "jotain muuta sisältöä") = false
    ∧ classify "jotain muuta sisältöä" = "found" :=
  ⟨by decide, by decide, by decide, by decide, by decide, by decide,
   default_positive _ (by decide) (by decide) (by decide) (by decide) (by decide) (by decide)⟩

/-- C6: the session starts unauthenticated (`is_logged_in` is false at
construction), and the flag after a `login` call is true exactly when it
already was, or the call succeeded: the only transition into the
authenticated state is a successful `login`, and after a failed login —
a caught exception or an unexpected post-login URL alike — the flag
stays false. -/
theorem session_state_machine (s : Bool) (env : LoginEnv) :
    init_is_logged_in = false
    ∧ ((login s env).2 = true ↔ (s = true ∨ (login s env).1 = true)) := by
  refine ⟨rfl, ?_⟩
  cases env with
  | raises => simp [login]
  | completes url =>
      by_cases h : inStr "sanakirjat" url = true <;> simp [login, h]

/-- C7: the inlined login guard is idempotent: on an already
authenticated session it reports success at once with zero `login`
calls, and on an unauthenticated session it calls `login` exactly once
and reports that call's outcome. -/
theorem ensure_authenticated_idempotent (env : LoginEnv) :
    ensure_authenticated true env = (true, true, 0)
    ∧ (ensure_authenticated false env).2.2 = 1
    ∧ (ensure_authenticated false env).1 = (login false env).1 :=
  ⟨rfl, rfl, rfl⟩

/-- C8: each error kind is caught at its own boundary and converted —
an exception in the login flow becomes the boolean `false`, and both the
timeout and the generic search failure, though distinct `FetchResult`
constructors, map to the same `"error"` label, which is what the batch
records for the term; nothing escapes to the batch caller (the embedded
operations are total). -/
theorem error_conversion (s : Bool) (lenv : LoginEnv) (t : String) :
    (login s LoginEnv.raises).1 = false
    ∧ search_term FetchResult.timeout = "error"
    ∧ search_term FetchResult.failure = "error"
    ∧ dictGet (search_multiple_terms true lenv (fun _ => FetchResult.timeout) [t]).1 t = some "error" := by
  refine ⟨rfl, rfl, rfl, ?_⟩
  simp [search_multiple_terms, ensure_authenticated, insertSeq, dictInsert, dictGet, search_term]

/-- C9: the classifier is a pure function of the content string —
applying it any number of times to the same content yields the same
label every time — and that label is one of the two classification
labels (`"error"` only ever comes from the exception paths). -/
theorem classify_deterministic (c : String) (n : Nat) :
    (List.replicate n c).map classify = List.replicate n (classify c)
    ∧ (classify c = "found" ∨ classify c = "not found") := by
  constructor
  · induction n with
    | zero => rfl
    | succ k ih => simp [List.replicate_succ, ih]
  · simp only [classify]
    split
    · exact Or.inr rfl
    · split
      · exact Or.inl rfl
      · split
        · exact Or.inl rfl
        · split
          · exact Or.inr rfl
          · exact Or.inl rfl

/-- C10: on a term list with duplicates, after a successful login guard
the batch performs one search per occurrence — the search count equals
the full input length, not the de-duplicated one — and the mapping keeps
for each term the result of its last occurrence's search. -/
theorem run_searches_every_occurrence (s : Bool) (lenv : LoginEnv)
    (senv : Nat → FetchResult) (terms : List String) (t : String)
    (hauth : (ensure_authenticated s lenv).1 = true)
    (hdup : ¬ terms.Nodup)
    (ht : t ∈ terms) :
    (search_multiple_terms s lenv senv terms).2 = terms.length
    ∧ dictGet (search_multiple_terms s lenv senv terms).1 t
        = some (search_term (senv (lastIdxIn terms t))) := by
  have hrun : search_multiple_terms s lenv senv terms
      = insertSeq (fun i => search_term (senv i)) terms 0 [] := by
    simp [search_multiple_terms, hauth]
  rw [hrun]
  constructor
  · rw [insertSeq_count]
    omega
  · rw [insertSeq_get]
    simp [ht]

theorem run_searches_every_occurrence_witness :
    (ensure_authenticated true LoginEnv.raises).1 = true
    ∧ ¬ (["uni", "uni"] : List String).Nodup
    ∧ "uni" ∈ (["uni", "uni"] : List String)
    ∧ ((search_multiple_terms true LoginEnv.raises (fun _ => FetchResult.failure) ["uni", "uni"]).2 = (["uni", "uni"] : List String).length
       ∧ dictGet (search_multiple_terms true LoginEnv.raises (fun _ => FetchResult.failure) ["uni", "uni"]).1 "uni"
           = some (search_term (FetchResult.failure))) :=
  ⟨by decide, by decide, by decide,
   run_searches_every_occurrence true LoginEnv.raises (fun _ => FetchResult.failure)
     ["uni", "uni"] "uni" (by decide) (by decide) (by decide)⟩

end Scraper
